import Mathlib

/-!
Verification of the stochastic evolution engine of `lei_calculator`
(`simulation.py`, with its metric collaborators from `metrics.py`).

The numeric pipeline is embedded over the rationals (the Python floats are
modelled as exact rationals).  The module-level float constant `PHI` is kept
as a real number where its exact value matters (`selection_pressure`,
`analyze_convergence`); the functions that receive the target ratio as a
parameter (`calculate_equilibrium`, `calculate_d_phi`, `calculate_LEI`,
`simulate_evolution`) take it as an explicit rational argument, mirroring
their Python signatures whose default is the float `PHI`.

`scipy.integrate.odeint` is an external black-box adaptive solver; it is
modelled as an opaque `OdeSolver` value constrained by its documented output
contract (the output has one row per requested time, and its first row is the
initial state).  None of the properties proved here depend on the values the
solver produces beyond that contract.
-/

namespace LeiCalculator

/-- The golden-ratio constant `PHI = (1 + np.sqrt(5)) / 2` (simulation.py
line 30, metrics.py line 23). -/
noncomputable def PHI : ℝ := (1 + Real.sqrt 5) / 2

/-- `np.clip(x, 0.0, 1.0)` as used in `calculate_equilibrium`
(simulation.py lines 80-82). -/
def npClip01 (x : ℚ) : ℚ := if x < 0 then 0 else if 1 < x then 1 else x

/-- Rounding to the nearest integer, ties to even, as Python `round` does. -/
def roundHalfEven (q : ℚ) : ℤ :=
  let f := ⌊q⌋
  let r := q - f
  if r < 1/2 then f
  else if 1/2 < r then f + 1
  else if f % 2 = 0 then f else f + 1

/-- Python `round(x, 3)` (metrics.py lines 101 and 160). -/
def pythonRound3 (q : ℚ) : ℚ := (roundHalfEven (q * 1000) : ℚ) / 1000

/-- The pre-clamp equilibrium value `V_eq = total / (target_ratio + 1)` of
`calculate_equilibrium` (simulation.py line 73). -/
def equilibriumVpre (H0 V0 target_ratio : ℚ) : ℚ :=
  (H0 + V0) / (target_ratio + 1)

/-- The pre-clamp equilibrium value `H_eq = target_ratio * V_eq` of
`calculate_equilibrium` (simulation.py line 74). -/
def equilibriumHpre (H0 V0 target_ratio : ℚ) : ℚ :=
  target_ratio * equilibriumVpre H0 V0 target_ratio

/-- `calculate_equilibrium` (simulation.py lines 33-84): solve
`H*/V* = target_ratio` with `H* + V* = H0 + V0`, grow `alpha` toward the cap
`0.70` by an increment of `0.15`, and clamp every component to `[0, 1]`. -/
def calculate_equilibrium (H0 V0 alpha0 target_ratio : ℚ) : ℚ × ℚ × ℚ :=
  let V_eq := equilibriumVpre H0 V0 target_ratio
  let H_eq := equilibriumHpre H0 V0 target_ratio
  let alpha_eq :=
    if alpha0 + 15/100 < 70/100 then alpha0 + 15/100 else 70/100
  (npClip01 H_eq, npClip01 V_eq, npClip01 alpha_eq)

/-- A Python exception as the engine can raise it: `ValueError` carries the
offending field name and value; `ZeroDivisionError` carries nothing. -/
inductive PyError where
  | valueError (field : String) (value : ℚ)
  | zeroDivision
deriving DecidableEq

/-- `calculate_d_phi` (metrics.py lines 104-160): distance of the `H/V` ratio
from `phi`, rounded to three decimals; the sentinel `10.0` when `V == 0`. -/
def calculate_d_phi (H V phi : ℚ) : ℚ :=
  if V = 0 then 10 else pythonRound3 |H / V - phi|

/-- `calculate_LEI` (metrics.py lines 26-101): validates `H`, `V`, `alpha`
against `[0, 1]` (raising `ValueError` named after the offending field),
returns `0.0` when `V == 0`, and otherwise
`round((V * alpha) / (|H/V - phi| + epsilon), 3)`.  The Python float division
would raise `ZeroDivisionError` were the denominator zero, which the
`epsilon` smoothing is there to prevent; that branch is modelled
explicitly. -/
def calculate_LEI (H V alpha phi epsilon : ℚ) : Except PyError ℚ :=
  if ¬ (0 ≤ H ∧ H ≤ 1) then .error (.valueError "H" H)
  else if ¬ (0 ≤ V ∧ V ≤ 1) then .error (.valueError "V" V)
  else if ¬ (0 ≤ alpha ∧ alpha ≤ 1) then .error (.valueError "alpha" alpha)
  else if V = 0 then .ok 0
  else if |H / V - phi| + epsilon = 0 then .error .zeroDivision
  else .ok (pythonRound3 ((V * alpha) / (|H / V - phi| + epsilon)))

/-- The selection-pressure factor of `ode_system` (simulation.py lines
139-145): `exp(-|H/V - PHI|)` when `V > 0`, else `0.0`. -/
noncomputable def selection_pressure (H V : ℝ) : ℝ :=
  if 0 < V then Real.exp (-|H / V - PHI|) else 0

/-- The drift-plus-noise right-hand side of `ode_system` (simulation.py lines
147-152).  The three reproducible standard-normal draws of lines 133-137 are
abstracted as the arguments `noiseH`, `noiseV`, `noiseAlpha`; their effect on
the global generator is modelled separately by `odeSystemRngEffect`. -/
noncomputable def ode_system (H V alpha H_eq V_eq alpha_eq gammaH gammaV beta
    sigmaH sigmaV sigmaAlpha noiseH noiseV noiseAlpha : ℝ) : ℝ × ℝ × ℝ :=
  (gammaH * (H_eq - H) + sigmaH * noiseH,
   gammaV * (V_eq - V) + sigmaV * noiseV,
   beta * (alpha_eq - alpha) * selection_pressure H V + sigmaAlpha * noiseAlpha)

/-- `np.linspace(start, stop, num)` (with the default endpoint inclusion), on
the rationals. -/
def npLinspace (start stop : ℚ) (num : ℕ) : List ℚ :=
  if num = 0 then []
  else if num = 1 then [start]
  else (List.range num).map
    (fun i : ℕ => start + (stop - start) / ((num : ℚ) - 1) * (i : ℚ))

/-- The result dictionary of `simulate_evolution` (simulation.py lines
260-270). -/
structure Trajectory where
  time : List ℚ
  H : List ℚ
  V : List ℚ
  alpha : List ℚ
  LEI : List ℚ
  d_phi : List ℚ
  H_eq : ℚ
  V_eq : ℚ
  alpha_eq : ℚ
deriving DecidableEq

/-- `scipy.integrate.odeint`, abstracted.  `solve seed grid y0` is the list of
states the solver reports at the requested times `grid`, starting from `y0`;
the right-hand side `ode_system`, its rate and noise parameters, and the
adaptive stepping are internal to the solver value.  The two proof fields are
the documented output contract of `odeint`: the output array has shape
`(len(t), len(y0))` and carries the initial value in its first row. -/
structure OdeSolver where
  solve : ℕ → List ℚ → ℚ × ℚ × ℚ → List (ℚ × ℚ × ℚ)
  length_eq : ∀ seed grid y0, (solve seed grid y0).length = grid.length
  first_eq : ∀ seed grid y0, grid ≠ [] → (solve seed grid y0).head? = some y0

/-- `simulate_evolution` (simulation.py lines 155-270): validate the initial
fields against `[0, 1]` (in order `H0`, `V0`, `alpha0`, raising a
`ValueError` named after the first offending field), compute the equilibrium,
build the time grid `np.linspace(0, years, years + 1)`, integrate, and
annotate the trajectory with the derived `LEI` and `d_phi` series.  The rate
and noise options (`gamma_H`, `gamma_V`, `beta`, `sigma_H`, `sigma_V`,
`sigma_alpha`) only enter the integration and are internal to the abstracted
solver; `calculate_LEI` is invoked with its default `epsilon = 0.1`. -/
def simulate_evolution (S : OdeSolver) (H0 V0 alpha0 : ℚ) (years : ℕ)
    (noise_seed : ℕ) (phi : ℚ) : Except PyError Trajectory :=
  if ¬ (0 ≤ H0 ∧ H0 ≤ 1) then .error (.valueError "H0" H0)
  else if ¬ (0 ≤ V0 ∧ V0 ≤ 1) then .error (.valueError "V0" V0)
  else if ¬ (0 ≤ alpha0 ∧ alpha0 ≤ 1) then .error (.valueError "alpha0" alpha0)
  else
    let eq := calculate_equilibrium H0 V0 alpha0 phi
    let t := npLinspace 0 years (years + 1)
    let sol := S.solve noise_seed t (H0, V0, alpha0)
    match sol.mapM (fun s => calculate_LEI s.1 s.2.1 s.2.2 phi (1/10)) with
    | .error e => .error e
    | .ok LEI_traj =>
        .ok { time := t
              H := sol.map (fun s => s.1)
              V := sol.map (fun s => s.2.1)
              alpha := sol.map (fun s => s.2.2)
              LEI := LEI_traj
              d_phi := sol.map (fun s => calculate_d_phi s.1 s.2.1 phi)
              H_eq := eq.1
              V_eq := eq.2.1
              alpha_eq := eq.2.2 }

/-- The warning `warnings.warn(f"Simulation {i} failed: {e}")` recorded by
`simulate_multiple_trajectories` (simulation.py line 338), as its structured
content: the run index and the cause. -/
structure RunWarning where
  runIndex : ℕ
  cause : PyError
deriving DecidableEq

/-- A successful run of the ensemble sampler: the trajectory annotated with
`simulation_id`, `H0`, `V0`, `alpha0` (simulation.py lines 332-335). -/
structure RunResult where
  simulation_id : ℕ
  H0 : ℚ
  V0 : ℚ
  alpha0 : ℚ
  traj : Trajectory
deriving DecidableEq

/-- `simulate_multiple_trajectories` (simulation.py lines 273-341).  The three
uniform draws a run takes from the global generator are abstracted as the
function `draws` (which initial-state values they are; their provenance from
the shared global generator is modelled separately by `runDraws`).  Each run
`i` integrates with seed `base_seed + i` (line 327); a failing run is recorded
as a warning carrying the run index and its cause and is excluded from the
returned ensemble (lines 337-339).  `ensembleStep` is one iteration of the
loop body (lines 319-339). -/
def ensembleStep (S : OdeSolver) (years : ℕ) (draws : ℕ → ℚ × ℚ × ℚ)
    (base_seed : ℕ) (phi : ℚ) (acc : List RunResult × List RunWarning)
    (i : ℕ) : List RunResult × List RunWarning :=
  let d := draws i
  match simulate_evolution S d.1 d.2.1 d.2.2 years (base_seed + i) phi with
  | .ok t => (acc.1 ++ [⟨i, d.1, d.2.1, d.2.2, t⟩], acc.2)
  | .error e => (acc.1, acc.2 ++ [⟨i, e⟩])

/-- `simulate_multiple_trajectories` (simulation.py lines 273-341): fold the
loop body over the run indices `0, ..., n-1`, collecting the ensemble and the
warnings. -/
def simulate_multiple_trajectories (S : OdeSolver) (n years : ℕ)
    (draws : ℕ → ℚ × ℚ × ℚ) (base_seed : ℕ) (phi : ℚ) :
    List RunResult × List RunWarning :=
  (List.range n).foldl (ensembleStep S years draws base_seed phi) ([], [])

/-- `np.mean` on a Python list of floats: the not-a-number result on an empty
input is modelled as `none`. -/
def npMean (l : List ℚ) : Option ℚ :=
  if l = [] then none else some (l.sum / l.length)

/-- The mean squared deviation from the mean (the square of `np.std`);
`none` models the not-a-number result on an empty input. -/
def npVarianceMean (l : List ℚ) : Option ℚ :=
  match npMean l with
  | none => none
  | some m => some ((l.map (fun x => (x - m) ^ 2)).sum / l.length)

/-- `np.std`, the square root of `npVarianceMean`. -/
noncomputable def npStd (l : List ℚ) : Option ℝ :=
  (npVarianceMean l).map (fun v => Real.sqrt (v : ℝ))

/-- The result dictionary of `analyze_convergence` (simulation.py lines
387-398).  Statistics of an empty sample set are the `none` sentinel
(numpy not-a-number). -/
structure ConvergenceReport where
  n_total : ℕ
  n_converged : ℕ
  convergence_rate : ℚ
  mean_convergence_time : Option ℚ
  std_convergence_time : Option ℝ
  final_mean_dphi : Option ℚ
  final_std_dphi : Option ℝ
  final_mean_HV_ratio : Option ℚ
  final_std_HV_ratio : Option ℝ
  distance_to_phi : Option ℝ

/-- One iteration of the per-trajectory loop of `analyze_convergence`
(simulation.py lines 370-385), threading the accumulator
`(n_converged, convergence_times, final_dphis, final_ratios)`.  The Python
negative-index and positional-index accesses raise `IndexError` out of range;
that is modelled by the `Option` monad. -/
def analyzeStep (threshold_dphi : ℚ) (acc : ℕ × List ℚ × List ℚ × List ℚ)
    (traj : Trajectory) : Option (ℕ × List ℚ × List ℚ × List ℚ) := do
  let final_dphi ← traj.d_phi.getLast?
  let final_dphis := acc.2.2.1 ++ [final_dphi]
  let convPart ←
    if final_dphi < threshold_dphi then
      match traj.d_phi.findIdx? (fun x => decide (x < threshold_dphi)) with
      | some j => do
          let tv ← traj.time[j]?
          pure (acc.1 + 1, acc.2.1 ++ [tv])
      | none => pure (acc.1 + 1, acc.2.1)
    else pure (acc.1, acc.2.1)
  let vlast ← traj.V.getLast?
  let final_ratios ←
    if 1/10 < vlast then do
      let hlast ← traj.H.getLast?
      pure (acc.2.2.2 ++ [hlast / vlast])
    else pure acc.2.2.2
  pure (convPart.1, convPart.2, final_dphis, final_ratios)

/-- `analyze_convergence` (simulation.py lines 344-398).  The unguarded
Python division `len(converged) / n_total` raises `ZeroDivisionError` when
the trajectory list is empty; a raising call is modelled as `none`.  The
`distance_to_phi` entry uses the module-level float constant `PHI`. -/
noncomputable def analyze_convergence (trajectories : List Trajectory)
    (threshold_dphi : ℚ) : Option ConvergenceReport :=
  match trajectories.foldlM (analyzeStep threshold_dphi) (0, [], [], []) with
  | none => none
  | some acc =>
      if trajectories.length = 0 then none
      else
        some { n_total := trajectories.length
               n_converged := acc.1
               convergence_rate := (acc.1 : ℚ) / trajectories.length
               mean_convergence_time :=
                 if acc.2.1 = [] then none else npMean acc.2.1
               std_convergence_time :=
                 if acc.2.1 = [] then none else npStd acc.2.1
               final_mean_dphi := npMean acc.2.2.1
               final_std_dphi := npStd acc.2.2.1
               final_mean_HV_ratio :=
                 if acc.2.2.2 = [] then none else npMean acc.2.2.2
               final_std_HV_ratio :=
                 if acc.2.2.2 = [] then none else npStd acc.2.2.2
               distance_to_phi :=
                 if acc.2.2.2 = [] then none
                 else (npMean acc.2.2.2).map (fun m => |(m : ℝ) - PHI|) }

/-- The state of the global numpy generator, abstracted as the pair of the
seed it was last seeded with and the number of values drawn since. -/
def RngState : Type := ℕ × ℕ

/-- The generator state right after `np.random.seed(s)`. -/
def npSeed (s : ℕ) : RngState := (s, 0)

/-- RNG effect of one `ode_system` evaluation (simulation.py lines 133-137):
`np.random.seed(noise_seed + int(t * 1000))` followed by three
standard-normal draws.  `tk` stands for the nonnegative integer
`int(t * 1000)`. -/
def odeSystemRngEffect (noise_seed tk : ℕ) : RngState → RngState :=
  fun _ => (noise_seed + tk, 3)

/-- RNG effect of one `odeint` call: the black-box adaptive solver evaluates
`ode_system` at a solver-chosen sequence of times, abstracted as the list
`sched` of their `int(t * 1000)` values. -/
def odeintRngEffect (noise_seed : ℕ) (sched : List ℕ) : RngState → RngState :=
  fun st => sched.foldl (fun s tk => odeSystemRngEffect noise_seed tk s) st

/-- Global generator state at the moment run `i` of
`simulate_multiple_trajectories` draws its initial conditions (simulation.py
lines 315-327): the generator is seeded once with the base seed before the
loop; each earlier run drew three uniforms and then ran its integration,
whose RNG effect is `odeintRngEffect` with that run's seed
`base_seed + i`. -/
def drawState (base_seed : ℕ) (scheds : ℕ → List ℕ) : ℕ → RngState
  | 0 => npSeed base_seed
  | i + 1 =>
      let st := drawState base_seed scheds i
      odeintRngEffect (base_seed + i) (scheds i) (st.1, st.2 + 3)

/-- The provenance of the three uniform draws of run `i`: each draw is
identified by the seed the generator was last seeded with and its position in
that stream. -/
def runDraws (base_seed : ℕ) (scheds : ℕ → List ℕ) (i : ℕ) :
    (ℕ × ℕ) × (ℕ × ℕ) × (ℕ × ℕ) :=
  let st := drawState base_seed scheds i
  ((st.1, st.2), (st.1, st.2 + 1), (st.1, st.2 + 2))

/-- What the claim asserts run `i` draws: the `3i`-th through `3i+2`-th
values of a generator seeded once with the base seed for the whole batch. -/
def claimedDraws (base_seed i : ℕ) : (ℕ × ℕ) × (ℕ × ℕ) × (ℕ × ℕ) :=
  ((base_seed, 3 * i), (base_seed, 3 * i + 1), (base_seed, 3 * i + 2))

/-- A solver value used to instantiate theorems on concrete inputs: it reports
the initial state at every requested time.  It satisfies the documented
`odeint` output contract. -/
def constSolver : OdeSolver where
  solve := fun _ grid y0 => List.replicate grid.length y0
  length_eq := by intro seed grid y0; simp
  first_eq := by
    intro seed grid y0 h
    cases grid with
    | nil => exact absurd rfl h
    | cons a l => simp [List.replicate]

instance exceptDecEq {ε α : Type} [DecidableEq ε] [DecidableEq α] :
    DecidableEq (Except ε α) := fun x y =>
  match x, y with
  | .ok a, .ok b =>
      if h : a = b then isTrue (congrArg Except.ok h)
      else isFalse (fun hh => h (Except.ok.inj hh))
  | .error a, .error b =>
      if h : a = b then isTrue (congrArg Except.error h)
      else isFalse (fun hh => h (Except.error.inj hh))
  | .ok _, .error _ => isFalse (fun hh => Except.noConfusion hh)
  | .error _, .ok _ => isFalse (fun hh => Except.noConfusion hh)

/-- Whether a call raised (propagated an exception). -/
def raised {α : Type} : Except PyError α → Bool :=
  fun r => match r with
  | .error _ => true
  | .ok _ => false

/-- The `d_phi` series of a simulation result (empty when the call raised). -/
def trajDphiOf : Except PyError Trajectory → List ℚ :=
  fun r => match r with
  | .ok t => t.d_phi
  | .error _ => []

theorem roundHalfEven_nonneg (q : ℚ) (h : 0 ≤ q) : 0 ≤ roundHalfEven q := by
  unfold roundHalfEven
  have hf : (0 : ℤ) ≤ ⌊q⌋ := Int.floor_nonneg.mpr h
  dsimp only
  split_ifs <;> omega

theorem pythonRound3_nonneg (q : ℚ) (h : 0 ≤ q) : 0 ≤ pythonRound3 q := by
  unfold pythonRound3
  have h1 := roundHalfEven_nonneg (q * 1000) (by positivity)
  have h2 : (0 : ℚ) ≤ (roundHalfEven (q * 1000) : ℚ) := by exact_mod_cast h1
  positivity

theorem calculate_d_phi_nonneg (H V phi : ℚ) : 0 ≤ calculate_d_phi H V phi := by
  unfold calculate_d_phi
  split_ifs
  · norm_num
  · exact pythonRound3_nonneg _ (abs_nonneg _)

/-- Claim C2: for every initial state with `H0 + V0 > 0` and every positive
target ratio, the pre-clamp outputs of `calculate_equilibrium` satisfy
`H_eq / V_eq = target_ratio` exactly. -/
theorem equilibrium_preclamp_ratio (H0 V0 r : ℚ) (htot : 0 < H0 + V0)
    (hr : 0 < r) :
    equilibriumHpre H0 V0 r / equilibriumVpre H0 V0 r = r := by
  have h1 : r + 1 ≠ 0 := by linarith
  have hV : equilibriumVpre H0 V0 r ≠ 0 := by
    unfold equilibriumVpre
    exact div_ne_zero (ne_of_gt htot) h1
  unfold equilibriumHpre
  rw [mul_div_assoc, div_self hV, mul_one]

/-- Witness for C2: the USA example of the source docstring,
`H0 = 0.65`, `V0 = 0.55`, target ratio `1.618`. -/
theorem equilibrium_preclamp_ratio_witness :
    (0 : ℚ) < 13/20 + 11/20 ∧ (0 : ℚ) < 1618/1000 ∧
    equilibriumHpre (13/20) (11/20) (1618/1000) /
      equilibriumVpre (13/20) (11/20) (1618/1000) = 1618/1000 :=
  ⟨by norm_num, by norm_num,
    equilibrium_preclamp_ratio (13/20) (11/20) (1618/1000) (by norm_num)
      (by norm_num)⟩

/-- Structure of a successful `simulate_evolution` call: each returned series
is the corresponding map over the solver output on the linspace grid. -/
theorem simulate_ok_struct (S : OdeSolver) (H0 V0 alpha0 : ℚ)
    (years noise_seed : ℕ) (phi : ℚ) (t : Trajectory)
    (h : simulate_evolution S H0 V0 alpha0 years noise_seed phi = .ok t) :
    t.time = npLinspace 0 years (years + 1) ∧
    t.H = (S.solve noise_seed (npLinspace 0 years (years + 1))
      (H0, V0, alpha0)).map (fun s => s.1) ∧
    t.V = (S.solve noise_seed (npLinspace 0 years (years + 1))
      (H0, V0, alpha0)).map (fun s => s.2.1) ∧
    t.alpha = (S.solve noise_seed (npLinspace 0 years (years + 1))
      (H0, V0, alpha0)).map (fun s => s.2.2) ∧
    t.d_phi = (S.solve noise_seed (npLinspace 0 years (years + 1))
      (H0, V0, alpha0)).map (fun s => calculate_d_phi s.1 s.2.1 phi) ∧
    (S.solve noise_seed (npLinspace 0 years (years + 1))
      (H0, V0, alpha0)).mapM
        (fun s => calculate_LEI s.1 s.2.1 s.2.2 phi (1/10)) = .ok t.LEI := by
  unfold simulate_evolution at h
  split_ifs at h
  dsimp only at h
  rcases hm : (S.solve noise_seed (npLinspace 0 years (years + 1))
      (H0, V0, alpha0)).mapM
      (fun s => calculate_LEI s.1 s.2.1 s.2.2 phi (1/10)) with e | l
  · rw [hm] at h
    exact absurd h (by simp)
  · rw [hm] at h
    have ht := (Except.ok.injEq _ _).mp h
    subst ht
    exact ⟨rfl, rfl, rfl, rfl, rfl, hm⟩

/-- Claim C8: `calculate_d_phi` is nonnegative on all inputs, returns the
large sentinel `10.0` when its second argument is zero, and consequently
every derived distance sample of every returned trajectory is
nonnegative. -/
theorem d_phi_nonneg_and_sentinel :
    (∀ H V phi : ℚ, 0 ≤ calculate_d_phi H V phi) ∧
    (∀ H phi : ℚ, calculate_d_phi H 0 phi = 10) ∧
    (∀ (S : OdeSolver) (H0 V0 alpha0 : ℚ) (years noise_seed : ℕ) (phi : ℚ),
      ∀ x ∈ trajDphiOf (simulate_evolution S H0 V0 alpha0 years noise_seed phi),
        0 ≤ x) := by
  refine ⟨calculate_d_phi_nonneg, ?_, ?_⟩
  · intro H phi
    unfold calculate_d_phi
    simp
  · intro S H0 V0 alpha0 years noise_seed phi x hx
    rcases hr : simulate_evolution S H0 V0 alpha0 years noise_seed phi with e | t
    · rw [hr] at hx
      simp [trajDphiOf] at hx
    · rw [hr] at hx
      have hs := (simulate_ok_struct S H0 V0 alpha0 years noise_seed phi t
        hr).2.2.2.2.1
      rw [show trajDphiOf (Except.ok t) = t.d_phi from rfl, hs] at hx
      obtain ⟨s, hmem, hxx⟩ := List.mem_map.mp hx
      exact hxx ▸ calculate_d_phi_nonneg s.1 s.2.1 phi

/-- Witness for C8: a concrete run with `V0 = 0`, whose only distance sample
is the sentinel `10`. -/
theorem d_phi_nonneg_and_sentinel_witness :
    (10 : ℚ) ∈ trajDphiOf (simulate_evolution constSolver 0 0 0 0 42
      (1618/1000)) ∧ (0 : ℚ) ≤ 10 :=
  ⟨by decide,
    d_phi_nonneg_and_sentinel.2.2 constSolver 0 0 0 0 42 (1618/1000) 10
      (by decide)⟩

/-- Claim C10: the selection-pressure factor of `ode_system` always lies in
`[0, 1]`; it is `exp(-|H/V - PHI|)` when `V > 0` and `0` whenever
`V ≤ 0`, so the drift of the third field never divides by zero. -/
theorem selection_pressure_bounds (H V : ℝ) :
    0 ≤ selection_pressure H V ∧ selection_pressure H V ≤ 1 ∧
    (V ≤ 0 → selection_pressure H V = 0) ∧
    (0 < V → selection_pressure H V = Real.exp (-|H / V - PHI|)) := by
  unfold selection_pressure
  refine ⟨?_, ?_, ?_, ?_⟩
  · split_ifs
    · exact le_of_lt (Real.exp_pos _)
    · exact le_refl 0
  · split_ifs
    · exact Real.exp_le_one_iff.mpr (neg_nonpos.mpr (abs_nonneg _))
    · norm_num
  · intro hV
    rw [if_neg (not_lt.mpr hV)]
  · intro hV
    rw [if_pos hV]

/-- Witness for C10 at `H = 1`, `V = 0`. -/
theorem selection_pressure_bounds_witness :
    (0 : ℝ) ≤ 0 ∧ selection_pressure 1 0 = 0 :=
  ⟨le_refl 0, (selection_pressure_bounds 1 0).2.2.1 (le_refl 0)⟩

/-- Claim C3 (code bug): on the empty ensemble, `analyze_convergence` does
not return a sentinel-filled report: the unguarded Python division
`len(converged) / n_total` is `0 / 0` and raises `ZeroDivisionError`
(a raising call is `none` in this embedding). -/
theorem analyze_convergence_empty_raises (th : ℚ) :
    analyze_convergence [] th = none := rfl

theorem odeintRngEffect_snd (seed : ℕ) (l : List ℕ) (h : l ≠ [])
    (st : RngState) : (odeintRngEffect seed l st).2 = 3 := by
  induction l generalizing st with
  | nil => exact absurd rfl h
  | cons a t ih =>
      show (odeintRngEffect seed t (odeSystemRngEffect seed a st)).2 = 3
      cases t with
      | nil => rfl
      | cons b t2 => exact ih (by simp) _

/-- Counterexample to claim C4: with base seed `42` and every integration
evaluating the right-hand side once at time `0`, the third run draws from the
generator state left by the second run (reseeded inside `ode_system` to
`43`), not the 6th-8th draws of the base-seeded stream. -/
theorem ensemble_draws_counterexample :
    runDraws 42 (fun _ => [0]) 2 ≠ claimedDraws 42 2 := by decide

/-- Claim C4 amended: the first run does take the first three draws of a
generator seeded once with the base seed, but because `ode_system` reseeds
the shared global generator at every evaluation, any batch whose second run
evaluates the right-hand side at least once gives its third run draws that
are not the 6th-8th values of the base-seeded stream: the draws depend on the
per-run integrations. -/
theorem ensemble_draws_amended (base : ℕ) (scheds : ℕ → List ℕ) :
    runDraws base scheds 0 = claimedDraws base 0 ∧
    (scheds 1 ≠ [] → runDraws base scheds 2 ≠ claimedDraws base 2) := by
  constructor
  · simp [runDraws, drawState, npSeed, claimedDraws]
  · intro h hEq
    have h2 : (drawState base scheds 2).2 = 3 := by
      show (odeintRngEffect (base + 1) (scheds 1) _).2 = 3
      exact odeintRngEffect_snd _ _ h _
    have h6 := congrArg (fun p => p.1.2) hEq
    simp [runDraws, claimedDraws] at h6
    omega

/-- Witness for the amended C4: base seed `7`, every run evaluating the
right-hand side once at `int(t * 1000) = 5`. -/
theorem ensemble_draws_amended_witness :
    ((fun _ : ℕ => [5]) 1 ≠ ([] : List ℕ)) ∧
    runDraws 7 (fun _ => [5]) 0 = claimedDraws 7 0 ∧
    runDraws 7 (fun _ => [5]) 2 ≠ claimedDraws 7 2 :=
  ⟨by decide, (ensemble_draws_amended 7 (fun _ => [5])).1,
    (ensemble_draws_amended 7 (fun _ => [5])).2 (by decide)⟩

/-- The time grid `np.linspace(0, years, years + 1)` (simulation.py line 238)
is exactly the integer grid `0, 1, ..., years`. -/
theorem npLinspace_grid (years : ℕ) :
    npLinspace 0 years (years + 1) =
      (List.range (years + 1)).map (fun i : ℕ => (i : ℚ)) := by
  cases years with
  | zero =>
      unfold npLinspace
      norm_num [List.range_succ]
  | succ n =>
      unfold npLinspace
      rw [if_neg (by omega), if_neg (by omega)]
      apply List.map_congr_left
      intro i hi
      have h2 : ((n : ℚ) + 1) ≠ 0 := by positivity
      push_cast
      field_simp

theorem mapM_ok_length {ε α β : Type} (f : α → Except ε β) :
    ∀ (l : List α) (ys : List β), l.mapM f = .ok ys → ys.length = l.length := by
  intro l
  induction l with
  | nil =>
      intro ys h
      rw [List.mapM_nil] at h
      cases h
      rfl
  | cons a t ih =>
      intro ys h
      rw [List.mapM_cons] at h
      cases hfa : f a with
      | error e =>
          rw [hfa] at h
          simp [Bind.bind, Except.bind] at h
      | ok b =>
          rw [hfa] at h
          cases hft : t.mapM f with
          | error e =>
              rw [hft] at h
              simp [Bind.bind, Except.bind] at h
          | ok bs =>
              rw [hft] at h
              simp [Bind.bind, Except.bind, pure, Except.pure] at h
              cases h
              simp [ih bs hft]

theorem eq_singleton_of_length_head {α : Type} (l : List α) (y : α)
    (hl : l.length = 1) (hh : l.head? = some y) : l = [y] := by
  cases l with
  | nil => simp at hl
  | cons a t =>
      simp at hh
      cases t with
      | nil => rw [hh]
      | cons b t2 => simp at hl

/-- When the initial fields are valid and the derived-metric pass succeeds,
`simulate_evolution` returns the record assembled at simulation.py lines
260-270. -/
theorem simulate_ok_build (S : OdeSolver) (H0 V0 alpha0 : ℚ)
    (years noise_seed : ℕ) (phi : ℚ) (l : List ℚ)
    (hH : 0 ≤ H0 ∧ H0 ≤ 1) (hV : 0 ≤ V0 ∧ V0 ≤ 1)
    (hA : 0 ≤ alpha0 ∧ alpha0 ≤ 1)
    (hm : (S.solve noise_seed (npLinspace 0 years (years + 1))
      (H0, V0, alpha0)).mapM
        (fun s => calculate_LEI s.1 s.2.1 s.2.2 phi (1/10)) = .ok l) :
    simulate_evolution S H0 V0 alpha0 years noise_seed phi =
      .ok { time := npLinspace 0 years (years + 1)
            H := (S.solve noise_seed (npLinspace 0 years (years + 1))
              (H0, V0, alpha0)).map (fun s => s.1)
            V := (S.solve noise_seed (npLinspace 0 years (years + 1))
              (H0, V0, alpha0)).map (fun s => s.2.1)
            alpha := (S.solve noise_seed (npLinspace 0 years (years + 1))
              (H0, V0, alpha0)).map (fun s => s.2.2)
            LEI := l
            d_phi := (S.solve noise_seed (npLinspace 0 years (years + 1))
              (H0, V0, alpha0)).map (fun s => calculate_d_phi s.1 s.2.1 phi)
            H_eq := (calculate_equilibrium H0 V0 alpha0 phi).1
            V_eq := (calculate_equilibrium H0 V0 alpha0 phi).2.1
            alpha_eq := (calculate_equilibrium H0 V0 alpha0 phi).2.2 } := by
  unfold simulate_evolution
  rw [if_neg (not_not_intro hH), if_neg (not_not_intro hV),
    if_neg (not_not_intro hA)]
  dsimp only
  rw [hm]

/-- Claim C7: a successfully returned trajectory for horizon `years` has time
values exactly the strictly increasing integers `0, 1, ..., years`, and every
per-field and derived array (and the time array) has length
`years + 1`. -/
theorem trajectory_length_and_times (S : OdeSolver) (H0 V0 alpha0 : ℚ)
    (years noise_seed : ℕ) (phi : ℚ) (t : Trajectory)
    (h : simulate_evolution S H0 V0 alpha0 years noise_seed phi = .ok t) :
    t.time = (List.range (years + 1)).map (fun i : ℕ => (i : ℚ)) ∧
    List.Pairwise (fun a b => a < b) t.time ∧
    t.time.length = years + 1 ∧ t.H.length = years + 1 ∧
    t.V.length = years + 1 ∧ t.alpha.length = years + 1 ∧
    t.LEI.length = years + 1 ∧ t.d_phi.length = years + 1 := by
  obtain ⟨ht, hH, hV, ha, hd, hLEI⟩ :=
    simulate_ok_struct S H0 V0 alpha0 years noise_seed phi t h
  have hgrid := npLinspace_grid years
  have hsollen : (S.solve noise_seed (npLinspace 0 years (years + 1))
      (H0, V0, alpha0)).length = years + 1 := by
    rw [S.length_eq, hgrid]
    simp
  have htime : t.time = (List.range (years + 1)).map (fun i : ℕ => (i : ℚ)) := by
    rw [ht, hgrid]
  refine ⟨htime, ?_, ?_, ?_, ?_, ?_, ?_, ?_⟩
  · rw [htime]
    exact (List.pairwise_map).mpr
      ((List.pairwise_lt_range _).imp (fun hab => by exact_mod_cast hab))
  · rw [htime]
    simp
  · rw [hH]
    simp [hsollen]
  · rw [hV]
    simp [hsollen]
  · rw [ha]
    simp [hsollen]
  · rw [mapM_ok_length _ _ _ hLEI, hsollen]
  · rw [hd]
    simp [hsollen]

/-- Witness for C7: a concrete horizon-zero run through `constSolver`. -/
theorem trajectory_length_and_times_witness :
    simulate_evolution constSolver 0 0 0 0 42 (1618/1000) =
      .ok ⟨[0], [0], [0], [0], [0], [10], 0, 0, 3/20⟩ ∧
    (⟨[0], [0], [0], [0], [0], [10], 0, 0, 3/20⟩ : Trajectory).time.length
      = 0 + 1 ∧
    (⟨[0], [0], [0], [0], [0], [10], 0, 0, 3/20⟩ : Trajectory).time
      = (List.range (0 + 1)).map (fun i : ℕ => (i : ℚ)) := by
  have hsol : constSolver.solve 42 (npLinspace 0 ((0 : ℕ) : ℚ) (0 + 1))
      (0, 0, 0) = [((0 : ℚ), (0 : ℚ), (0 : ℚ))] := rfl
  have hq : calculate_LEI 0 0 0 (1618/1000) (1/10) = .ok 0 := rfl
  have hm : (constSolver.solve 42 (npLinspace 0 ((0 : ℕ) : ℚ) (0 + 1))
      ((0 : ℚ), (0 : ℚ), (0 : ℚ))).mapM
        (fun s => calculate_LEI s.1 s.2.1 s.2.2 (1618/1000) (1/10))
        = .ok [0] := by
    rw [hsol, List.mapM_cons]
    simp only [List.mapM_nil, hq, Bind.bind, Except.bind, pure, Except.pure]
  have h : simulate_evolution constSolver 0 0 0 0 42 (1618/1000) =
      .ok ⟨[0], [0], [0], [0], [0], [10], 0, 0, 3/20⟩ := by
    rw [simulate_ok_build constSolver 0 0 0 0 42 (1618/1000) [0]
      (by norm_num) (by norm_num) (by norm_num) hm]
    rw [hsol]
    norm_num [Except.ok.injEq, Trajectory.mk.injEq, calculate_equilibrium,
      equilibriumHpre, equilibriumVpre, npClip01, calculate_d_phi, npLinspace]
  have hc := trajectory_length_and_times constSolver 0 0 0 0 42 (1618/1000)
    ⟨[0], [0], [0], [0], [0], [10], 0, 0, 3/20⟩ h
  exact ⟨h, hc.2.2.1, hc.1⟩

/-- For in-range inputs, `calculate_LEI` cannot raise (the `epsilon = 0.1`
smoothing keeps the denominator positive). -/
theorem calculate_LEI_ok (H V alpha phi : ℚ) (hH : 0 ≤ H ∧ H ≤ 1)
    (hV : 0 ≤ V ∧ V ≤ 1) (hA : 0 ≤ alpha ∧ alpha ≤ 1) :
    ∃ q, calculate_LEI H V alpha phi (1/10) = .ok q := by
  unfold calculate_LEI
  rw [if_neg (not_not_intro hH), if_neg (not_not_intro hV),
    if_neg (not_not_intro hA)]
  by_cases h0 : V = 0
  · rw [if_pos h0]
    exact ⟨0, rfl⟩
  · have hden : ¬ (|H / V - phi| + 1/10 = 0) := by
      have := abs_nonneg (H / V - phi)
      intro hc
      linarith
    rw [if_neg h0, if_neg hden]
    exact ⟨_, rfl⟩

/-- Claim C6: for horizon `0` and a valid initial state, the simulation
returns a trajectory of exactly one sample whose fields equal the initial
state. -/
theorem horizon_zero_single_sample (S : OdeSolver) (H0 V0 alpha0 : ℚ)
    (noise_seed : ℕ) (phi : ℚ) (hH : 0 ≤ H0 ∧ H0 ≤ 1)
    (hV : 0 ≤ V0 ∧ V0 ≤ 1) (hA : 0 ≤ alpha0 ∧ alpha0 ≤ 1) :
    ∃ t, simulate_evolution S H0 V0 alpha0 0 noise_seed phi = .ok t ∧
      t.time = [0] ∧ t.H = [H0] ∧ t.V = [V0] ∧ t.alpha = [alpha0] ∧
      t.LEI.length = 1 ∧ t.d_phi.length = 1 := by
  have hgrid : npLinspace 0 ((0 : ℕ) : ℚ) (0 + 1) = [0] := by decide
  have hlen := S.length_eq noise_seed (npLinspace 0 ((0 : ℕ) : ℚ) (0 + 1))
    (H0, V0, alpha0)
  have hhead := S.first_eq noise_seed (npLinspace 0 ((0 : ℕ) : ℚ) (0 + 1))
    (H0, V0, alpha0) (by rw [hgrid]; simp)
  rw [hgrid] at hlen
  simp only [List.length_singleton] at hlen
  have hsol : S.solve noise_seed (npLinspace 0 ((0 : ℕ) : ℚ) (0 + 1))
      (H0, V0, alpha0) = [(H0, V0, alpha0)] :=
    eq_singleton_of_length_head _ _ hlen hhead
  obtain ⟨q, hq⟩ := calculate_LEI_ok H0 V0 alpha0 phi hH hV hA
  have hm : (S.solve noise_seed (npLinspace 0 ((0 : ℕ) : ℚ) (0 + 1))
      (H0, V0, alpha0)).mapM
        (fun s => calculate_LEI s.1 s.2.1 s.2.2 phi (1/10)) = .ok [q] := by
    rw [hsol, List.mapM_cons]
    simp only [List.mapM_nil, hq, Bind.bind, Except.bind, pure, Except.pure]
  refine ⟨_, simulate_ok_build S H0 V0 alpha0 0 noise_seed phi [q] hH hV hA hm,
    hgrid, ?_, ?_, ?_, rfl, ?_⟩
  · rw [hsol]
    rfl
  · rw [hsol]
    rfl
  · rw [hsol]
    rfl
  · rw [hsol]
    rfl

/-- Witness for C6 at the valid initial state `(0.5, 0.5, 0.5)`. -/
theorem horizon_zero_single_sample_witness :
    (0 ≤ (1 : ℚ)/2 ∧ (1 : ℚ)/2 ≤ 1) ∧
    (∃ t, simulate_evolution constSolver (1/2) (1/2) (1/2) 0 42 (1618/1000)
        = .ok t ∧
      t.time = [0] ∧ t.H = [1/2] ∧ t.V = [1/2] ∧ t.alpha = [1/2] ∧
      t.LEI.length = 1 ∧ t.d_phi.length = 1) :=
  ⟨by norm_num,
    horizon_zero_single_sample constSolver (1/2) (1/2) (1/2) 42 (1618/1000)
      (by norm_num) (by norm_num) (by norm_num)⟩

theorem mapM_error_mem {ε α β : Type} (f : α → Except ε β) :
    ∀ (l : List α) (e : ε), l.mapM f = .error e → ∃ x ∈ l, f x = .error e := by
  intro l
  induction l with
  | nil =>
      intro e h
      rw [List.mapM_nil] at h
      simp [pure, Except.pure] at h
  | cons a t ih =>
      intro e h
      rw [List.mapM_cons] at h
      cases hfa : f a with
      | error e2 =>
          rw [hfa] at h
          simp [Bind.bind, Except.bind] at h
          exact ⟨a, by simp, by rw [hfa, h]⟩
      | ok b =>
          rw [hfa] at h
          cases hft : t.mapM f with
          | error e2 =>
              rw [hft] at h
              simp [Bind.bind, Except.bind] at h
              obtain ⟨x, hx, hfx⟩ := ih e2 hft
              exact ⟨x, by simp [hx], by rw [hfx, h]⟩
          | ok bs =>
              rw [hft] at h
              simp [Bind.bind, Except.bind, pure, Except.pure] at h

/-- A `ValueError` coming out of `calculate_LEI` is named after one of the
metric arguments `H`, `V`, `alpha` (metrics.py lines 83-86), never after the
simulation entry fields. -/
theorem calculate_LEI_error_names (H V alpha phi eps : ℚ) (name : String)
    (v : ℚ)
    (h : calculate_LEI H V alpha phi eps = .error (.valueError name v)) :
    name = "H" ∨ name = "V" ∨ name = "alpha" := by
  unfold calculate_LEI at h
  split_ifs at h <;> simp_all

/-- Claim C5 amended: the single-trajectory simulation reports a
pre-integration validation error, identified by the first offending field
name and its value and independent of the solver, exactly when some initial
field lies outside `[0, 1]`; the horizon is not validated (a zero horizon
proceeds normally), and once the fields are valid no error named after an
initial field can be produced. -/
theorem validation_error_characterization (S : OdeSolver) (H0 V0 alpha0 : ℚ)
    (years noise_seed : ℕ) (phi : ℚ) :
    (¬ (0 ≤ H0 ∧ H0 ≤ 1) →
      simulate_evolution S H0 V0 alpha0 years noise_seed phi =
        .error (.valueError "H0" H0)) ∧
    ((0 ≤ H0 ∧ H0 ≤ 1) → ¬ (0 ≤ V0 ∧ V0 ≤ 1) →
      simulate_evolution S H0 V0 alpha0 years noise_seed phi =
        .error (.valueError "V0" V0)) ∧
    ((0 ≤ H0 ∧ H0 ≤ 1) → (0 ≤ V0 ∧ V0 ≤ 1) → ¬ (0 ≤ alpha0 ∧ alpha0 ≤ 1) →
      simulate_evolution S H0 V0 alpha0 years noise_seed phi =
        .error (.valueError "alpha0" alpha0)) ∧
    ((0 ≤ H0 ∧ H0 ≤ 1) → (0 ≤ V0 ∧ V0 ≤ 1) → (0 ≤ alpha0 ∧ alpha0 ≤ 1) →
      ∀ name v, simulate_evolution S H0 V0 alpha0 years noise_seed phi =
        .error (.valueError name v) →
        name ≠ "H0" ∧ name ≠ "V0" ∧ name ≠ "alpha0") := by
  refine ⟨?_, ?_, ?_, ?_⟩
  · intro h
    unfold simulate_evolution
    rw [if_pos h]
  · intro hH h
    unfold simulate_evolution
    rw [if_neg (not_not_intro hH), if_pos h]
  · intro hH hV h
    unfold simulate_evolution
    rw [if_neg (not_not_intro hH), if_neg (not_not_intro hV), if_pos h]
  · intro hH hV hA name v h
    unfold simulate_evolution at h
    rw [if_neg (not_not_intro hH), if_neg (not_not_intro hV),
      if_neg (not_not_intro hA)] at h
    dsimp only at h
    rcases hm : (S.solve noise_seed (npLinspace 0 years (years + 1))
        (H0, V0, alpha0)).mapM
        (fun s => calculate_LEI s.1 s.2.1 s.2.2 phi (1/10)) with e | l
    · rw [hm] at h
      have he : e = .valueError name v := by
        simpa using h
      obtain ⟨x, hxmem, hfx⟩ := mapM_error_mem _ _ _ hm
      rw [he] at hfx
      rcases calculate_LEI_error_names _ _ _ _ _ _ _ hfx with h1 | h1 | h1 <;>
        subst h1 <;> exact ⟨by decide, by decide, by decide⟩
    · rw [hm] at h
      exact absurd h (by simp)

/-- Counterexample to claim C5 as stated: with every field valid and horizon
`0`, the claim requires a validation error (its condition holds through the
zero horizon), yet the call returns a trajectory and raises nothing. -/
theorem validation_error_counterexample :
    ¬ ((¬ (0 ≤ (1 : ℚ)/2 ∧ (1 : ℚ)/2 ≤ 1) ∨ (0 : ℕ) = 0) ↔
      ∃ e, simulate_evolution constSolver (1/2) (1/2) (1/2) 0 42 (1618/1000)
        = .error e) := by
  intro hIff
  obtain ⟨e, he⟩ := hIff.mp (Or.inr rfl)
  have hsol : constSolver.solve 42 (npLinspace 0 ((0 : ℕ) : ℚ) (0 + 1))
      ((1 : ℚ)/2, (1 : ℚ)/2, (1 : ℚ)/2)
      = [((1 : ℚ)/2, (1 : ℚ)/2, (1 : ℚ)/2)] := rfl
  obtain ⟨q, hq⟩ := calculate_LEI_ok (1/2) (1/2) (1/2) (1618/1000)
    (by norm_num) (by norm_num) (by norm_num)
  have hm : (constSolver.solve 42 (npLinspace 0 ((0 : ℕ) : ℚ) (0 + 1))
      ((1 : ℚ)/2, (1 : ℚ)/2, (1 : ℚ)/2)).mapM
        (fun s => calculate_LEI s.1 s.2.1 s.2.2 (1618/1000) (1/10))
        = .ok [q] := by
    rw [hsol, List.mapM_cons]
    simp only [List.mapM_nil, hq, Bind.bind, Except.bind, pure, Except.pure]
  rw [simulate_ok_build constSolver (1/2) (1/2) (1/2) 0 42 (1618/1000) [q]
    (by norm_num) (by norm_num) (by norm_num) hm] at he
  exact Except.noConfusion he

/-- Witness for the amended C5 at the invalid field `H0 = 2`. -/
theorem validation_error_characterization_witness :
    ¬ (0 ≤ (2 : ℚ) ∧ (2 : ℚ) ≤ 1) ∧
    simulate_evolution constSolver 2 (1/2) (1/2) 5 42 (1618/1000) =
      .error (.valueError "H0" 2) :=
  ⟨by norm_num,
    (validation_error_characterization constSolver 2 (1/2) (1/2) 5 42
      (1618/1000)).1 (by norm_num)⟩

/-- The outcome of run `i` of the ensemble loop: its drawn initial state fed
into `simulate_evolution` with the per-run seed `base_seed + i`
(simulation.py lines 321-331). -/
def runOutcome (S : OdeSolver) (years : ℕ) (draws : ℕ → ℚ × ℚ × ℚ)
    (base_seed : ℕ) (phi : ℚ) (i : ℕ) : Except PyError Trajectory :=
  simulate_evolution S (draws i).1 (draws i).2.1 (draws i).2.2 years
    (base_seed + i) phi

theorem ensembleStep_fold (S : OdeSolver) (years : ℕ)
    (draws : ℕ → ℚ × ℚ × ℚ) (base_seed : ℕ) (phi : ℚ) :
    ∀ (l : List ℕ) (acc : List RunResult × List RunWarning),
      l.foldl (ensembleStep S years draws base_seed phi) acc =
        (acc.1 ++ l.filterMap (fun i =>
            match runOutcome S years draws base_seed phi i with
            | .ok t => some ⟨i, (draws i).1, (draws i).2.1, (draws i).2.2, t⟩
            | .error _ => none),
         acc.2 ++ l.filterMap (fun i =>
            match runOutcome S years draws base_seed phi i with
            | .ok _ => none
            | .error e => some ⟨i, e⟩)) := by
  intro l
  induction l with
  | nil =>
      intro acc
      simp
  | cons a t ih =>
      intro acc
      rw [List.foldl_cons, ih]
      rcases ha : runOutcome S years draws base_seed phi a with e | tr <;>
        simp only [ensembleStep, runOutcome] at ha ⊢ <;>
          rw [List.filterMap_cons, List.filterMap_cons, ha] <;>
            simp [List.append_assoc]

/-- Claim C9: the ensemble sampler returns at most `n` trajectories, returns
the empty ensemble for `n = 0` without error, records a warning with the run
index and cause for every failing run while excluding that run from the
ensemble, and still includes every successful run. -/
theorem ensemble_bounds_and_isolation (S : OdeSolver) (n years : ℕ)
    (draws : ℕ → ℚ × ℚ × ℚ) (base_seed : ℕ) (phi : ℚ) :
    (simulate_multiple_trajectories S n years draws base_seed phi).1.length
      ≤ n ∧
    (n = 0 →
      simulate_multiple_trajectories S n years draws base_seed phi
        = ([], [])) ∧
    (∀ i, i < n → ∀ e,
      runOutcome S years draws base_seed phi i = .error e →
      (⟨i, e⟩ : RunWarning) ∈
        (simulate_multiple_trajectories S n years draws base_seed phi).2 ∧
      ∀ r ∈ (simulate_multiple_trajectories S n years draws base_seed phi).1,
        r.simulation_id ≠ i) ∧
    (∀ i, i < n → ∀ t,
      runOutcome S years draws base_seed phi i = .ok t →
      (⟨i, (draws i).1, (draws i).2.1, (draws i).2.2, t⟩ : RunResult) ∈
        (simulate_multiple_trajectories S n years draws base_seed phi).1) := by
  have hspec := ensembleStep_fold S years draws base_seed phi (List.range n)
    ([], [])
  have hchar : simulate_multiple_trajectories S n years draws base_seed phi =
      ((List.range n).filterMap (fun i =>
          match runOutcome S years draws base_seed phi i with
          | .ok t => some ⟨i, (draws i).1, (draws i).2.1, (draws i).2.2, t⟩
          | .error _ => none),
       (List.range n).filterMap (fun i =>
          match runOutcome S years draws base_seed phi i with
          | .ok _ => none
          | .error e => some ⟨i, e⟩)) := by
    unfold simulate_multiple_trajectories
    rw [hspec]
    simp
  refine ⟨?_, ?_, ?_, ?_⟩
  · rw [hchar]
    calc ((List.range n).filterMap _).length
        ≤ (List.range n).length := List.length_filterMap_le _ _
      _ = n := List.length_range n
  · intro hn
    subst hn
    rfl
  · intro i hi e he
    constructor
    · rw [hchar]
      refine List.mem_filterMap.mpr ⟨i, List.mem_range.mpr hi, ?_⟩
      rw [he]
    · intro r hr
      rw [hchar] at hr
      obtain ⟨j, hj, hjr⟩ := List.mem_filterMap.mp hr
      rcases hoj : runOutcome S years draws base_seed phi j with e2 | t2 <;>
        rw [hoj] at hjr
      · exact absurd hjr (by simp)
      · have hid : r.simulation_id = j := by
          have := Option.some.inj hjr
          rw [← this]
        intro hri
        rw [hid] at hri
        subst hri
        rw [hoj] at he
        exact Except.noConfusion he
  · intro i hi t ht
    rw [hchar]
    refine List.mem_filterMap.mpr ⟨i, List.mem_range.mpr hi, ?_⟩
    rw [ht]

/-- Witness for C9: a two-run batch whose first run draws the invalid field
`H0 = 2` and fails, while the second run succeeds. -/
theorem ensemble_bounds_and_isolation_witness :
    ((0 : ℕ) < 2) ∧
    runOutcome constSolver 0
      (fun i => if i = 0 then ((2 : ℚ), (1 : ℚ)/2, (1 : ℚ)/2)
        else ((1 : ℚ)/2, (1 : ℚ)/2, (1 : ℚ)/2)) 42 (1618/1000) 0
      = .error (.valueError "H0" 2) ∧
    (⟨0, .valueError "H0" 2⟩ : RunWarning) ∈
      (simulate_multiple_trajectories constSolver 2 0
        (fun i => if i = 0 then ((2 : ℚ), (1 : ℚ)/2, (1 : ℚ)/2)
          else ((1 : ℚ)/2, (1 : ℚ)/2, (1 : ℚ)/2)) 42 (1618/1000)).2 ∧
    (simulate_multiple_trajectories constSolver 2 0
      (fun i => if i = 0 then ((2 : ℚ), (1 : ℚ)/2, (1 : ℚ)/2)
        else ((1 : ℚ)/2, (1 : ℚ)/2, (1 : ℚ)/2)) 42 (1618/1000)).1.length
      ≤ 2 := by
  have hsim0 : runOutcome constSolver 0
      (fun i => if i = 0 then ((2 : ℚ), (1 : ℚ)/2, (1 : ℚ)/2)
        else ((1 : ℚ)/2, (1 : ℚ)/2, (1 : ℚ)/2)) 42 (1618/1000) 0
      = .error (.valueError "H0" 2) := by
    unfold runOutcome simulate_evolution
    rw [if_pos (by norm_num)]
    rfl
  have hc := ensemble_bounds_and_isolation constSolver 2 0
    (fun i => if i = 0 then ((2 : ℚ), (1 : ℚ)/2, (1 : ℚ)/2)
      else ((1 : ℚ)/2, (1 : ℚ)/2, (1 : ℚ)/2)) 42 (1618/1000)
  exact ⟨by norm_num, hsim0,
    (hc.2.2.1 0 (by norm_num) (.valueError "H0" 2) hsim0).1, hc.1⟩

end LeiCalculator
